import Mathlib

/-!
Shallow embedding of the rmpfit crate (src/lib.rs) for verification.

Modelling conventions:
* `f64` values are modelled as exact rationals `ℚ`; the square root in the
  norm utility is modelled with `Real.sqrt`, so `enorm` lands in `ℝ`.
* Rust slice indexing that can panic (index out of bounds) is modelled
  explicitly: an out-of-bounds access makes the whole call end in the
  `RunResult.aborted` outcome instead of returning a value.
* The user supplied fitter trait `MPFitter` is modelled as a structure with a
  total residual function and a point count.  `eval` returns the contents of
  the `deviates` buffer after the user wrote it.
* `mpfitRun` is the embedding of the `mpfit` entry point.  Besides the
  returned `MPResult` it also exposes, for verification only, the state of the
  caller visible parameter buffer on return (`xallOut`), the number of
  invocations of the user residual function (`evalCount`), the contents of the
  Jacobian storage at return (`fjackFinal`) and the final iterate held in
  `xnew` (`xnewFinal`).
-/

/-- Sidedness of finite difference derivative (enum `MPSide`, src/lib.rs:33). -/
inductive MPSide
  | Auto
  | Right
  | Left
  | Both
  | User
deriving DecidableEq, Repr

/-- Definition of a parameter constraint structure (`MPPar`, src/lib.rs:2). -/
structure MPPar where
  fixed : Bool
  limited_low : Bool
  limited_up : Bool
  limit_low : ℚ
  limit_up : ℚ
  step : ℚ
  rel_step : ℚ
  side : MPSide
deriving DecidableEq, Repr

/-- The `Default` impl for `MPPar` (src/lib.rs:16). -/
def MPPar.default : MPPar :=
  { fixed := false
    limited_low := false
    limited_up := false
    limit_low := 0
    limit_up := 0
    step := 0
    rel_step := 0
    side := MPSide.Auto }

/-- Exact value of `f64::EPSILON`, that is `2 ^ (-52)`. -/
def F64_EPSILON : ℚ := 1 / 2 ^ 52

/-- Definition of the MPFIT configuration structure (`MPConfig`, src/lib.rs:47). -/
structure MPConfig where
  ftol : ℚ
  xtol : ℚ
  gtol : ℚ
  epsfcn : ℚ
  step_factor : ℚ
  covtol : ℚ
  max_iter : ℕ
  max_fev : ℕ
  n_print : Bool
  do_user_scale : Bool
  no_finite_check : Bool
deriving DecidableEq, Repr

/-- The `Default` impl for `MPConfig` (src/lib.rs:80): tolerances `1e-10`,
`epsfcn = f64::EPSILON`, `step_factor = 100`, `covtol = 1e-14`. -/
def MPConfig.default : MPConfig :=
  { ftol := 1 / 10 ^ 10
    xtol := 1 / 10 ^ 10
    gtol := 1 / 10 ^ 10
    epsfcn := F64_EPSILON
    step_factor := 100
    covtol := 1 / 10 ^ 14
    max_iter := 0
    max_fev := 0
    n_print := true
    do_user_scale := false
    no_finite_check := false }

/-- MP Fit errors (`MPError`, src/lib.rs:99). -/
inductive MPError
  | Input
  | Nan
  | Empty
  | NoFree
  | InitBounds
  | Bounds
  | DoF
deriving DecidableEq, Repr

/-- Potential success status (`MPSuccess`, src/lib.rs:117). -/
inductive MPSuccess
  | Chi
  | Par
  | Both
  | Dir
  | MaxIter
  | Ftol
  | Xtol
  | Gtol
deriving DecidableEq, Repr

/-- Definition of the results structure (`MPStatus`, src/lib.rs:143). -/
structure MPStatus where
  best_norm : ℚ
  orig_norm : ℚ
  n_iter : ℕ
  n_fev : ℕ
  n_par : ℕ
  n_free : ℕ
  n_pegged : ℕ
  n_func : ℕ
  resid : List ℚ
  xerror : List ℚ
  covar : List ℚ
deriving DecidableEq, Repr

/-- MP Fit result (`MPResult`, src/lib.rs:137). -/
inductive MPResult
  | Success : MPSuccess → MPStatus → MPResult
  | Error : MPError → MPResult
deriving DecidableEq, Repr

/-- The status record literal built at src/lib.rs:450-462: every numeric field
is zero and every vector is empty. -/
def zeroStatus : MPStatus :=
  { best_norm := 0
    orig_norm := 0
    n_iter := 0
    n_fev := 0
    n_par := 0
    n_free := 0
    n_pegged := 0
    n_func := 0
    resid := []
    xerror := []
    covar := [] }

/-- The user supplied fitter (trait `MPFitter`, src/lib.rs:168): `eval` maps a
parameter vector to the residual buffer contents, `number_of_points` is `m`. -/
structure MPFitter where
  eval : List ℚ → List ℚ
  number_of_points : ℕ

/-- Constant `MP_RDWARF = 1.8269129289596699e-153` (src/lib.rs:175),
written as an exact rational. -/
def MP_RDWARF : ℚ := 18269129289596699 / 10 ^ 169

/-- Constant `MP_RGIANT = 1.3407807799935083e+153` (src/lib.rs:177),
written as an exact rational. -/
def MP_RGIANT : ℚ := 13407807799935083 * 10 ^ 137

/-- Working state (struct `MPFit`, src/lib.rs:179). -/
structure MPFit where
  m : ℕ
  npar : ℕ
  nfree : ℕ
  ifree : List ℕ
  fvec : List ℚ
  nfev : ℕ
  xnew : List ℚ
  x : List ℚ
  xall : List ℚ
  qtf : List ℚ
  fjack : List ℚ
  side : List MPSide
  step : List ℚ
  dstep : List ℚ

/-- Constructor `MPFit::new` (src/lib.rs:197): `None` when `m == 0`,
otherwise the freshly initialised working state (`Vec::with_capacity`
allocations are empty vectors). -/
def MPFit.new (m : ℕ) (xall : List ℚ) : Option MPFit :=
  let npar := xall.length
  if m = 0 then none
  else
    some
      { m := m
        npar := npar
        nfree := 0
        ifree := []
        fvec := List.replicate m 0
        nfev := 1
        xnew := List.replicate npar 0
        x := []
        xall := xall
        qtf := []
        fjack := []
        side := []
        step := []
        dstep := [] }

/-- The free-index list built by the loop at src/lib.rs:410-418: the indices
`i` (counted from the given start value) whose parameter is not fixed, in
order.  Mirrors `for (i, p) in pars.iter().enumerate() { if !p.fixed { fit.ifree.push(i) } }`. -/
def buildFreeAux : ℕ → List MPPar → List ℕ
  | _, [] => []
  | i, p :: rest =>
    if p.fixed then buildFreeAux (i + 1) rest
    else i :: buildFreeAux (i + 1) rest

/-- Free parameter indices of a constraint array (see `buildFreeAux`).
The source counts `nfree` by incrementing once per push, so
`nfree = (ifreeOf pars).length`. -/
def ifreeOf (pars : List MPPar) : List ℕ := buildFreeAux 0 pars

/-- The loop at src/lib.rs:432-434: `fit.x.push(fit.xall[fit.ifree[i]])` for
each free slot.  An index outside `xall` panics in Rust; here that is `none`. -/
def buildX (xall : List ℚ) : List ℕ → Option (List ℚ)
  | [] => some []
  | i :: rest =>
    match xall[i]? with
    | none => none
    | some v => (buildX xall rest).map (fun t => v :: t)

/-- The write-back loop at src/lib.rs:441-443: `fit.xnew[fit.ifree[i]] = fit.x[i]`
for each free slot (`List.set` is a no-op out of range; on the reachable path
all indices are in range because `buildX` succeeded on the same list). -/
def writeFree (xnew : List ℚ) : List (ℕ × ℚ) → List ℚ
  | [] => xnew
  | (i, v) :: rest => writeFree (xnew.set i v) rest

/-- The indexing performed by `fdjack2` (src/lib.rs:374-387): for every free
slot `j` it reads `self.x[free_p]` with `free_p = self.ifree[j]`.  This is
`true` exactly when none of those reads is out of bounds (otherwise the Rust
code panics).  `fdjack2` takes `&self` and writes nothing. -/
def fdjack2Touches (x : List ℚ) (ifree : List ℕ) : Bool :=
  ifree.all fun free_p => decide (free_p < x.length)

/-- The step size `h` that the `fdjack2` loop body (src/lib.rs:376-386)
computes for the free parameter at full-vector position `free_p`:
`h = sqrt(max(epsfcn, EPSILON)) * |x_p|`, overridden by a declared positive
absolute `step`, then by a declared positive relative step as
`|rel_step * x_p|`, with fallback to `eps` when the result is zero.  The value
is computed and then discarded by the source. -/
noncomputable def fdjack2H (config : MPConfig) (x : List ℚ) (stepL dstepL : List ℚ)
    (free_p : ℕ) : ℝ :=
  let eps : ℝ := Real.sqrt ((max config.epsfcn F64_EPSILON : ℚ) : ℝ)
  let temp : ℝ := ((x.getD free_p 0 : ℚ) : ℝ)
  let h : ℝ := eps * |temp|
  let h : ℝ :=
    if free_p < stepL.length ∧ 0 < stepL.getD free_p 0
    then ((stepL.getD free_p 0 : ℚ) : ℝ) else h
  let h : ℝ :=
    if free_p < dstepL.length ∧ 0 < dstepL.getD free_p 0
    then |((dstepL.getD free_p 0 : ℚ) : ℝ) * temp| else h
  if h = 0 then eps else h

/-- Outcome of a call: either a returned `MPResult`, or an abort through an
out-of-bounds slice index (a Rust panic, so nothing is returned). -/
inductive RunResult
  | ok : MPResult → RunResult
  | aborted : RunResult
deriving DecidableEq, Repr

/-- Observable outcome of one `mpfit` call (see the module docstring). -/
structure MPRun where
  result : RunResult
  xallOut : List ℚ
  evalCount : ℕ
  fjackFinal : List ℚ
  xnewFinal : List ℚ

/-- An exit taken before the user function was ever evaluated and before any
working arrays were filled. -/
def earlyExit (r : RunResult) (xall : List ℚ) : MPRun :=
  { result := r, xallOut := xall, evalCount := 0, fjackFinal := [], xnewFinal := [] }

/-- Embedding of `mpfit` from the degrees-of-freedom check onwards
(src/lib.rs:424-463).  In order: the `m < nfree` check, the single user
function evaluation (line 427; `fnorm` and `orig_norm` are computed at lines
428-429 and never used, so they do not appear in any output), the
`copy_from_slice` of `xall` into `xnew` (line 430), the construction of the
reduced vector `x` (lines 431-434, may abort), allocation of `qtf` and
`fjack` (lines 438-439), then the single pass of the loop (lines 440-447):
write `x` back into `xnew`, call `fdjack2` (which only reads, and may abort on
`self.x[free_p]`), `break`, and return the constant success value
(lines 448-463).  At both call sites `fit.nfree = fit.ifree.length`. -/
def mpfitMain (f : MPFitter) (xall : List ℚ) (config : MPConfig) (fit : MPFit) : MPRun :=
  if fit.m < fit.nfree then earlyExit (.ok (.Error .DoF)) xall
  else
    let fitE := { fit with fvec := f.eval fit.xall }
    let fitC := { fitE with xnew := fitE.xall }
    match buildX fitC.xall fitC.ifree with
    | none =>
        { result := .aborted, xallOut := xall, evalCount := 1
          fjackFinal := fitC.fjack, xnewFinal := fitC.xnew }
    | some xv =>
        let fitX := { fitC with
          x := xv
          qtf := List.replicate fitC.nfree 0
          fjack := List.replicate (fitC.m * fitC.nfree) 0 }
        let fitW := { fitX with xnew := writeFree fitX.xnew (fitX.ifree.zip fitX.x) }
        if fdjack2Touches fitW.x fitW.ifree then
          { result := .ok (.Success .Both zeroStatus), xallOut := xall, evalCount := 1
            fjackFinal := fitW.fjack, xnewFinal := fitW.xnew }
        else
          { result := .aborted, xallOut := xall, evalCount := 1
            fjackFinal := fitW.fjack, xnewFinal := fitW.xnew }

/-- Embedding of the `mpfit` entry point (src/lib.rs:391): `MPFit::new`
(`Empty` when `m == 0`), parameter binding (src/lib.rs:401-423: all
parameters free when the constraint array is absent; `Empty` when it is
present but empty; otherwise build `ifree`, `side`, `step`, `dstep` and fail
with `NoFree` when no parameter is free), then `mpfitMain`. -/
def mpfitRun (f : MPFitter) (xall : List ℚ) (params : Option (List MPPar))
    (config : MPConfig) : MPRun :=
  match MPFit.new f.number_of_points xall with
  | none => earlyExit (.ok (.Error .Empty)) xall
  | some fit0 =>
    match params with
    | none =>
        mpfitMain f xall config
          { fit0 with nfree := fit0.npar, ifree := List.range fit0.npar }
    | some pars =>
        if pars.length = 0 then earlyExit (.ok (.Error .Empty)) xall
        else
          let fit1 := { fit0 with
            nfree := (ifreeOf pars).length
            ifree := ifreeOf pars
            side := pars.map MPPar.side
            step := pars.map MPPar.step
            dstep := pars.map MPPar.rel_step }
          if fit1.nfree = 0 then earlyExit (.ok (.Error .NoFree)) xall
          else mpfitMain f xall config fit1

/-- The value `mpfit` hands back to the caller (its `MPResult`, or an abort). -/
def mpfit (f : MPFitter) (xall : List ℚ) (params : Option (List MPPar))
    (config : MPConfig) : RunResult :=
  (mpfitRun f xall params config).result

/-- Number of free parameters as the validated call determines it:
`npar` when no constraint array is given, else the number of non-fixed
entries (src/lib.rs:401-423). -/
def nfreeOf (xall : List ℚ) : Option (List MPPar) → ℕ
  | none => xall.length
  | some pars => (ifreeOf pars).length

/-- One step of the three-sum accumulation loop of `enorm`
(src/lib.rs:258-282) on the state `(s1, s2, s3, x1max, x3max)`. -/
def enormAcc (agiant : ℚ) (acc : ℚ × ℚ × ℚ × ℚ × ℚ) (val : ℚ) : ℚ × ℚ × ℚ × ℚ × ℚ :=
  match acc with
  | (s1, s2, s3, x1max, x3max) =>
    let xabs := |val|
    if xabs > MP_RDWARF ∧ xabs < agiant then
      (s1, s2 + xabs * xabs, s3, x1max, x3max)
    else if xabs > MP_RDWARF then
      if xabs > x1max then
        let temp := x1max / xabs
        (1 + s1 * temp * temp, s2, s3, xabs, x3max)
      else
        let temp := xabs / x1max
        (s1 + temp * temp, s2, s3, x1max, x3max)
    else if xabs > x3max then
      let temp := x3max / xabs
      (s1, s2, 1 + s3 * temp * temp, x1max, xabs)
    else if xabs ≠ 0 then
      let temp := xabs / x3max
      (s1, s2, s3 + temp * temp, x1max, x3max)
    else
      (s1, s2, s3, x1max, x3max)

/-- The final combination step of `enorm` (src/lib.rs:283-295): prefer the
large-component sum, then the intermediate sum, then the small sum. -/
noncomputable def enormFinish : ℚ × ℚ × ℚ × ℚ × ℚ → ℝ
  | (s1, s2, s3, x1max, x3max) =>
    if s1 ≠ 0 then
      (x1max : ℝ) * Real.sqrt (((s1 + (s2 / x1max) / x1max : ℚ) : ℝ))
    else if s2 ≠ 0 then
      Real.sqrt
        (((if s2 ≥ x3max then s2 * (1 + (x3max / s2) * (x3max * s3))
           else x3max * ((s2 / x3max) + x3max * s3) : ℚ) : ℝ))
    else (x3max : ℝ) * Real.sqrt ((s3 : ℚ) : ℝ)

/-- The norm utility `enorm` (src/lib.rs:251-296) on the residual vector
`fvec` of an `m`-point fit: `agiant = MP_RGIANT / m`, accumulate the three
scaled sums over the vector, then combine. -/
noncomputable def enorm (m : ℕ) (fvec : List ℚ) : ℝ :=
  enormFinish (fvec.foldl (enormAcc (MP_RGIANT / (m : ℚ))) (0, 0, 0, 0, 0))

/-- A one-point fitter whose residual is identically zero. -/
def oneZeroFitter : MPFitter := ⟨fun _ => [0], 1⟩

/-- A fitter reporting zero data points. -/
def zeroPointFitter : MPFitter := ⟨fun _ => [], 0⟩

/-- A one-point fitter whose residual is twice the first parameter, so the
derivative of the residual with respect to that parameter is `2` everywhere. -/
def slopeFitter : MPFitter := ⟨fun p => [2 * p.headD 0], 1⟩

/-- A one-point fitter whose residual is the constant `3`. -/
def res3Fitter : MPFitter := ⟨fun _ => [3], 1⟩

/-- A default constraint with `fixed = true`. -/
def fixedPar : MPPar := { MPPar.default with fixed := true }

/-- A free parameter with an active lower limit of `1`. -/
def lowBoundPar : MPPar := { MPPar.default with limited_low := true, limit_low := 1 }

/-- A free parameter with a declared absolute finite-difference step of `1/2`. -/
def stepHalfPar : MPPar := { MPPar.default with step := 1 / 2 }

/-- The working state right after parameter binding when no constraint array
was supplied (src/lib.rs:402-405): every parameter is free. -/
def fitOfNone (f : MPFitter) (xall : List ℚ) : MPFit :=
  { m := f.number_of_points, npar := xall.length, nfree := xall.length
    ifree := List.range xall.length, fvec := List.replicate f.number_of_points 0
    nfev := 1, xnew := List.replicate xall.length 0, x := [], xall := xall
    qtf := [], fjack := [], side := [], step := [], dstep := [] }

/-- The working state right after parameter binding over a constraint array
(src/lib.rs:410-418). -/
def fitOfSome (f : MPFitter) (xall : List ℚ) (pars : List MPPar) : MPFit :=
  { m := f.number_of_points, npar := xall.length, nfree := (ifreeOf pars).length
    ifree := ifreeOf pars, fvec := List.replicate f.number_of_points 0
    nfev := 1, xnew := List.replicate xall.length 0, x := [], xall := xall
    qtf := [], fjack := [], side := pars.map MPPar.side, step := pars.map MPPar.step
    dstep := pars.map MPPar.rel_step }

/-- Setting an index to the value already stored there is the identity (also
out of range, where `set` is a no-op). -/
theorem set_getD_self (xs : List ℚ) (i : ℕ) : xs.set i (xs.getD i 0) = xs := by
  induction xs generalizing i with
  | nil => simp
  | cons a t ih =>
    cases i with
    | zero => simp [List.getD_cons_zero]
    | succ n =>
      show a :: t.set n ((a :: t).getD (n + 1) 0) = a :: t
      rw [List.getD_cons_succ, ih n]

/-- Writing back values read from the same positions leaves the list unchanged. -/
theorem writeFree_zip_map (xs : List ℚ) (l : List ℕ) :
    writeFree xs (l.zip (l.map fun i => xs.getD i 0)) = xs := by
  induction l with
  | nil => rfl
  | cons i t ih =>
    simp only [List.map_cons, List.zip_cons_cons, writeFree, set_getD_self]
    exact ih

/-- When `buildX` succeeds, the reduced vector is the positionwise lookup. -/
theorem buildX_some (xs : List ℚ) :
    ∀ (l : List ℕ) (v : List ℚ), buildX xs l = some v → v = l.map fun i => xs.getD i 0 := by
  intro l
  induction l with
  | nil =>
    intro v h
    simp only [buildX, Option.some.injEq] at h
    simp [← h]
  | cons i t ih =>
    intro v h
    simp only [buildX] at h
    cases hv : xs[i]? with
    | none => rw [hv] at h; exact absurd h (by simp)
    | some a =>
      rw [hv] at h
      rw [Option.map_eq_some'] at h
      obtain ⟨w, hw, hav⟩ := h
      obtain ⟨hi, ha⟩ := List.getElem?_eq_some.mp hv
      subst hav
      rw [List.map_cons, ← ih w hw, List.getD_eq_getElem xs 0 hi, ha]

/-- `buildX` succeeds when every index is in range. -/
theorem buildX_of_lt (xs : List ℚ) (l : List ℕ) (h : ∀ i ∈ l, i < xs.length) :
    buildX xs l = some (l.map fun i => xs.getD i 0) := by
  induction l with
  | nil => rfl
  | cons i t ih =>
    have hi : i < xs.length := h i (List.mem_cons_self i t)
    have ht := ih fun j hj => h j (List.mem_cons_of_mem i hj)
    simp only [buildX, List.getElem?_eq_getElem hi, ht, Option.map_some', List.map_cons,
      Option.some.injEq]
    rw [List.getD_eq_getElem xs 0 hi]

/-- An all-fixed tail contributes no free indices, from any start index. -/
theorem buildFreeAux_all_fixed (pars : List MPPar) (h : ∀ p ∈ pars, p.fixed = true) :
    ∀ k : ℕ, buildFreeAux k pars = [] := by
  induction pars with
  | nil => intro k; rfl
  | cons p t ih =>
    intro k
    simp only [buildFreeAux, h p (List.mem_cons_self p t), if_true]
    exact ih (fun q hq => h q (List.mem_cons_of_mem p hq)) (k + 1)

/-- A constraint array in which every parameter is fixed has no free indices. -/
theorem ifreeOf_all_fixed (pars : List MPPar) (h : ∀ p ∈ pars, p.fixed = true) :
    ifreeOf pars = [] :=
  buildFreeAux_all_fixed pars h 0

/-- Shape of the post-validation phase: the caller buffer comes back as it
went in, and the outcome is an abort, a DoF error, or the constant success
value with `xnew` equal to the initial vector and exactly one evaluation. -/
theorem mpfitMain_shape (f : MPFitter) (xall : List ℚ) (config : MPConfig) (fit : MPFit) :
    (mpfitMain f xall config fit).xallOut = xall ∧
    ((mpfitMain f xall config fit).result = .aborted ∨
     (mpfitMain f xall config fit).result = .ok (.Error .DoF) ∨
     ((mpfitMain f xall config fit).result = .ok (.Success .Both zeroStatus) ∧
      (mpfitMain f xall config fit).xnewFinal = fit.xall ∧
      (mpfitMain f xall config fit).evalCount = 1)) := by
  unfold mpfitMain
  by_cases hdof : fit.m < fit.nfree
  · simp [hdof, earlyExit]
  · simp only [hdof, if_false]
    cases hb : buildX fit.xall fit.ifree with
    | none => simp [hb]
    | some xv =>
      have hxv := buildX_some fit.xall fit.ifree xv hb
      by_cases ht : fdjack2Touches xv fit.ifree
      · simp only [hb, ht, if_true]
        refine ⟨trivial, Or.inr (Or.inr ⟨trivial, ?_, trivial⟩)⟩
        simp only [hxv, writeFree_zip_map]
      · simp [hb, ht]

/-- DoF exit of the post-validation phase. -/
theorem mpfitMain_dof (f : MPFitter) (xall : List ℚ) (config : MPConfig) (fit : MPFit)
    (hdof : fit.m < fit.nfree) :
    mpfitMain f xall config fit = earlyExit (.ok (.Error .DoF)) xall := by
  simp [mpfitMain, hdof]

/-- Once the DoF check has passed, a DoF error can no longer be produced. -/
theorem mpfitMain_not_dof (f : MPFitter) (xall : List ℚ) (config : MPConfig) (fit : MPFit)
    (hdof : ¬ fit.m < fit.nfree) :
    (mpfitMain f xall config fit).result = .aborted ∨
    (mpfitMain f xall config fit).result = .ok (.Success .Both zeroStatus) := by
  unfold mpfitMain
  simp only [hdof, if_false]
  cases hb : buildX fit.xall fit.ifree with
  | none => simp [hb]
  | some xv =>
    by_cases ht : fdjack2Touches xv fit.ifree
    · simp [hb, ht]
    · simp [hb, ht]

/-- Full characterization of the success path: when the degrees of freedom
suffice, the free indices are exactly `0, …, nfree-1` and there are at least
`nfree` initial values, the call returns the constant success record, the
Jacobian storage stays all zeros, and exactly one evaluation happens. -/
theorem mpfitMain_success (f : MPFitter) (xall : List ℚ) (config : MPConfig) (fit : MPFit)
    (hdof : ¬ fit.m < fit.nfree)
    (hrange : fit.ifree = List.range fit.ifree.length)
    (hlen : fit.ifree.length ≤ fit.xall.length) :
    mpfitMain f xall config fit =
      { result := .ok (.Success .Both zeroStatus), xallOut := xall, evalCount := 1
        fjackFinal := List.replicate (fit.m * fit.nfree) 0, xnewFinal := fit.xall } := by
  have hall : ∀ i ∈ fit.ifree, i < fit.xall.length := by
    intro i hi
    rw [hrange] at hi
    exact lt_of_lt_of_le (List.mem_range.mp hi) hlen
  have hbx : buildX fit.xall fit.ifree = some (fit.ifree.map fun i => fit.xall.getD i 0) :=
    buildX_of_lt fit.xall fit.ifree hall
  have htouch : fdjack2Touches (fit.ifree.map fun i => fit.xall.getD i 0) fit.ifree = true := by
    rw [fdjack2Touches, List.all_eq_true]
    intro fp hfp
    rw [decide_eq_true_eq, List.length_map]
    conv at hfp => rw [hrange]
    exact List.mem_range.mp hfp
  unfold mpfitMain
  simp only [hdof, if_false, hbx, htouch, if_true]
  congr 1
  simp only [writeFree_zip_map]

/-- With zero data points, `MPFit::new` fails and the call exits with `Empty`
before anything else happens. -/
theorem mpfitRun_m0 (f : MPFitter) (xall : List ℚ) (params : Option (List MPPar))
    (config : MPConfig) (hm : f.number_of_points = 0) :
    mpfitRun f xall params config = earlyExit (.ok (.Error .Empty)) xall := by
  simp [mpfitRun, MPFit.new, hm]

/-- With a positive point count and no constraint array, the call proceeds to
the post-validation phase with every parameter free. -/
theorem mpfitRun_none_eq (f : MPFitter) (xall : List ℚ) (config : MPConfig)
    (hm : f.number_of_points ≠ 0) :
    mpfitRun f xall none config = mpfitMain f xall config (fitOfNone f xall) := by
  simp [mpfitRun, MPFit.new, hm, fitOfNone]

/-- With a positive point count and a present but empty constraint array, the
call exits with `Empty`. -/
theorem mpfitRun_some_empty (f : MPFitter) (xall : List ℚ) (config : MPConfig)
    (pars : List MPPar) (hm : f.number_of_points ≠ 0) (hne : pars.length = 0) :
    mpfitRun f xall (some pars) config = earlyExit (.ok (.Error .Empty)) xall := by
  simp [mpfitRun, MPFit.new, hm, hne]

/-- With a positive point count and a non-empty constraint array with no free
parameter, the call exits with `NoFree`. -/
theorem mpfitRun_some_nofree (f : MPFitter) (xall : List ℚ) (config : MPConfig)
    (pars : List MPPar) (hm : f.number_of_points ≠ 0) (hne : pars.length ≠ 0)
    (hnf : (ifreeOf pars).length = 0) :
    mpfitRun f xall (some pars) config = earlyExit (.ok (.Error .NoFree)) xall := by
  simp [mpfitRun, MPFit.new, hm, hne, hnf]

/-- With a positive point count and a non-empty constraint array with at least
one free parameter, the call proceeds to the post-validation phase with the
bound parameter data. -/
theorem mpfitRun_some_eq (f : MPFitter) (xall : List ℚ) (config : MPConfig)
    (pars : List MPPar) (hm : f.number_of_points ≠ 0) (hne : pars.length ≠ 0)
    (hnf : (ifreeOf pars).length ≠ 0) :
    mpfitRun f xall (some pars) config = mpfitMain f xall config (fitOfSome f xall pars) := by
  simp [mpfitRun, MPFit.new, hm, hne, hnf, fitOfSome]

/-- Every possible outcome of a call: the caller buffer always comes back
unchanged, and the result is an abort, one of the three validation errors
`Empty`, `NoFree`, `DoF`, or the constant success value with exactly one user
function evaluation and final iterate equal to the initial vector. -/
theorem mpfitRun_outcomes (f : MPFitter) (xall : List ℚ) (params : Option (List MPPar))
    (config : MPConfig) :
    (mpfitRun f xall params config).xallOut = xall ∧
    ((mpfitRun f xall params config).result = .aborted ∨
     (mpfitRun f xall params config).result = .ok (.Error .Empty) ∨
     (mpfitRun f xall params config).result = .ok (.Error .NoFree) ∨
     (mpfitRun f xall params config).result = .ok (.Error .DoF) ∨
     ((mpfitRun f xall params config).result = .ok (.Success .Both zeroStatus) ∧
      (mpfitRun f xall params config).xnewFinal = xall ∧
      (mpfitRun f xall params config).evalCount = 1)) := by
  by_cases hm : f.number_of_points = 0
  · rw [mpfitRun_m0 f xall params config hm]
    exact ⟨rfl, Or.inr (Or.inl rfl)⟩
  · cases params with
    | none =>
      rw [mpfitRun_none_eq f xall config hm]
      obtain ⟨h1, h2⟩ := mpfitMain_shape f xall config (fitOfNone f xall)
      refine ⟨h1, ?_⟩
      rcases h2 with h | h | h
      · exact Or.inl h
      · exact Or.inr (Or.inr (Or.inr (Or.inl h)))
      · exact Or.inr (Or.inr (Or.inr (Or.inr h)))
    | some pars =>
      by_cases hne : pars.length = 0
      · rw [mpfitRun_some_empty f xall config pars hm hne]
        exact ⟨rfl, Or.inr (Or.inl rfl)⟩
      · by_cases hnf : (ifreeOf pars).length = 0
        · rw [mpfitRun_some_nofree f xall config pars hm hne hnf]
          exact ⟨rfl, Or.inr (Or.inr (Or.inl rfl))⟩
        · rw [mpfitRun_some_eq f xall config pars hm hne hnf]
          obtain ⟨h1, h2⟩ := mpfitMain_shape f xall config (fitOfSome f xall pars)
          refine ⟨h1, ?_⟩
          rcases h2 with h | h | h
          · exact Or.inl h
          · exact Or.inr (Or.inr (Or.inr (Or.inl h)))
          · exact Or.inr (Or.inr (Or.inr (Or.inr h)))

/-- C1 (amended): for every call whose inputs pass validation (m > 0; the
constraint array, if present, is non-empty and leaves at least one free
parameter; m >= nfree) and which additionally does not abort on an
out-of-bounds slice index (the free parameters occupy the first nfree
positions of the constraint array and there are at least nfree initial
values), the returned value is the Success variant with reason Both and the
status whose fields are all zero and whose vectors are all empty, regardless
of the user function, the data, or the configuration. -/
theorem mpfit_validated_success
    (f : MPFitter) (xall : List ℚ) (params : Option (List MPPar)) (config : MPConfig)
    (hm : f.number_of_points ≠ 0)
    (hfree : ∀ pars, params = some pars →
      pars ≠ [] ∧ (ifreeOf pars).length ≠ 0 ∧
      ifreeOf pars = List.range (ifreeOf pars).length ∧ (ifreeOf pars).length ≤ xall.length)
    (hdof : nfreeOf xall params ≤ f.number_of_points) :
    mpfit f xall params config = .ok (.Success .Both zeroStatus) := by
  cases params with
  | none =>
    rw [mpfit, mpfitRun_none_eq f xall config hm]
    have h1 : ¬ (fitOfNone f xall).m < (fitOfNone f xall).nfree := Nat.not_lt.mpr hdof
    have h2 : (fitOfNone f xall).ifree = List.range (fitOfNone f xall).ifree.length := by
      simp [fitOfNone]
    have h3 : (fitOfNone f xall).ifree.length ≤ (fitOfNone f xall).xall.length := by
      simp [fitOfNone]
    rw [mpfitMain_success f xall config (fitOfNone f xall) h1 h2 h3]
  | some pars =>
    obtain ⟨hne, hnf, hrange, hlen⟩ := hfree pars rfl
    have hne' : pars.length ≠ 0 := fun h => hne (List.length_eq_zero.mp h)
    rw [mpfit, mpfitRun_some_eq f xall config pars hm hne' hnf]
    have h1 : ¬ (fitOfSome f xall pars).m < (fitOfSome f xall pars).nfree :=
      Nat.not_lt.mpr hdof
    have h2 : (fitOfSome f xall pars).ifree =
        List.range (fitOfSome f xall pars).ifree.length := hrange
    have h3 : (fitOfSome f xall pars).ifree.length ≤ (fitOfSome f xall pars).xall.length := hlen
    rw [mpfitMain_success f xall config (fitOfSome f xall pars) h1 h2 h3]

/-- Witness for `mpfit_validated_success` at a concrete input. -/
theorem mpfit_validated_success_w :
    mpfit oneZeroFitter [5] none MPConfig.default = .ok (.Success .Both zeroStatus) :=
  mpfit_validated_success oneZeroFitter [5] none MPConfig.default
    (by decide) (fun pars h => by cases h) (by decide)

/-- Counterexample to C1 as stated: this input passes every validation
condition of the claim (one data point, non-empty constraint array, exactly
one free parameter, m = nfree = 1), yet the call does not return the Success
variant: because the fixed parameter precedes the free one, `fdjack2` indexes
`self.x[1]` into the length-1 reduced vector and the call aborts with an
out-of-bounds panic. -/
theorem mpfit_validated_success_cex :
    oneZeroFitter.number_of_points = 1 ∧
    (ifreeOf [fixedPar, MPPar.default]).length = 1 ∧
    mpfit oneZeroFitter [0, 0] (some [fixedPar, MPPar.default]) MPConfig.default = .aborted ∧
    RunResult.aborted ≠ .ok (.Success .Both zeroStatus) := by decide

/-- C2: whenever the call returns the Success variant, the caller parameter
buffer on return holds the final iterate (which also equals the initial
vector: no iteration ever moves the point, and the buffer is never written). -/
theorem mpfit_final_iterate_in_xall
    (f : MPFitter) (xall : List ℚ) (params : Option (List MPPar)) (config : MPConfig)
    (s : MPSuccess) (st : MPStatus)
    (h : (mpfitRun f xall params config).result = .ok (.Success s st)) :
    (mpfitRun f xall params config).xallOut = (mpfitRun f xall params config).xnewFinal ∧
    (mpfitRun f xall params config).xallOut = xall := by
  obtain ⟨hxo, hro⟩ := mpfitRun_outcomes f xall params config
  rcases hro with ha | ha | ha | ha | ⟨hs, hxn, -⟩
  · rw [h] at ha; exact absurd ha (by simp)
  · rw [h] at ha; exact absurd ha (by simp)
  · rw [h] at ha; exact absurd ha (by simp)
  · rw [h] at ha; exact absurd ha (by simp)
  · exact ⟨hxo.trans hxn.symm, hxo⟩

/-- Witness for `mpfit_final_iterate_in_xall` at a concrete input. -/
theorem mpfit_final_iterate_in_xall_w :
    (mpfitRun oneZeroFitter [5] none MPConfig.default).xallOut =
      (mpfitRun oneZeroFitter [5] none MPConfig.default).xnewFinal ∧
    (mpfitRun oneZeroFitter [5] none MPConfig.default).xallOut = [5] :=
  mpfit_final_iterate_in_xall oneZeroFitter [5] none MPConfig.default .Both zeroStatus
    (by decide)

/-- C3 (amended): mpfit performs no validation of initial values against
declared bounds and never returns Error(InitBounds), for any input
whatsoever. -/
theorem mpfit_never_initbounds
    (f : MPFitter) (xall : List ℚ) (params : Option (List MPPar)) (config : MPConfig) :
    mpfit f xall params config ≠ .ok (.Error .InitBounds) := by
  intro h
  unfold mpfit at h
  obtain ⟨-, hro⟩ := mpfitRun_outcomes f xall params config
  rcases hro with ha | ha | ha | ha | ⟨ha, -, -⟩ <;>
    rw [h] at ha <;> exact absurd ha (by simp)

/-- Counterexample to C3 as stated: the initial value 0 of the single free
parameter lies strictly below its active lower limit 1, yet the call does not
return Error(InitBounds) before evaluation: it evaluates the user function
once and returns the constant success value. -/
theorem mpfit_initbounds_never_raised_cex :
    lowBoundPar.fixed = false ∧ lowBoundPar.limited_low = true ∧ lowBoundPar.limit_low = 1 ∧
    mpfit oneZeroFitter [0] (some [lowBoundPar]) MPConfig.default =
      .ok (.Success .Both zeroStatus) ∧
    (mpfitRun oneZeroFitter [0] (some [lowBoundPar]) MPConfig.default).evalCount = 1 := by
  decide

/-- C6 (amended): with m > 0 and a constraint array that is present but
empty, the result is Error(Empty), not Error(NoFree). -/
theorem mpfit_empty_pars_empty_error
    (f : MPFitter) (xall : List ℚ) (config : MPConfig) (hm : f.number_of_points ≠ 0) :
    mpfit f xall (some []) config = .ok (.Error .Empty) := by
  rw [mpfit, mpfitRun_some_empty f xall config [] hm rfl]
  rfl

/-- Witness for `mpfit_empty_pars_empty_error` at a concrete input. -/
theorem mpfit_empty_pars_empty_error_w :
    mpfit oneZeroFitter [1] (some []) MPConfig.default = .ok (.Error .Empty) :=
  mpfit_empty_pars_empty_error oneZeroFitter [1] MPConfig.default (by decide)

/-- Counterexample to C6 as stated: with one data point and a present but
empty constraint array the call returns Error(Empty), which is not the
claimed Error(NoFree). -/
theorem mpfit_empty_pars_not_nofree_cex :
    oneZeroFitter.number_of_points = 1 ∧
    mpfit oneZeroFitter [1] (some []) MPConfig.default = .ok (.Error .Empty) ∧
    RunResult.ok (.Error .Empty) ≠ .ok (.Error .NoFree) := by decide

/-- C7 (amended): with m > 0, a non-empty constraint array in which every
parameter is fixed yields Error(NoFree); with m == 0 the Empty check fires
first instead (see the counterexample). -/
theorem mpfit_all_fixed_nofree
    (f : MPFitter) (xall : List ℚ) (config : MPConfig) (pars : List MPPar)
    (hm : f.number_of_points ≠ 0) (hne : pars ≠ [])
    (hfix : ∀ p ∈ pars, p.fixed = true) :
    mpfit f xall (some pars) config = .ok (.Error .NoFree) := by
  have hne' : pars.length ≠ 0 := fun h => hne (List.length_eq_zero.mp h)
  have hnf : (ifreeOf pars).length = 0 := by rw [ifreeOf_all_fixed pars hfix]; rfl
  rw [mpfit, mpfitRun_some_nofree f xall config pars hm hne' hnf]
  rfl

/-- Witness for `mpfit_all_fixed_nofree` at a concrete input. -/
theorem mpfit_all_fixed_nofree_w :
    mpfit oneZeroFitter [1] (some [fixedPar]) MPConfig.default = .ok (.Error .NoFree) :=
  mpfit_all_fixed_nofree oneZeroFitter [1] MPConfig.default [fixedPar] (by decide)
    (by decide) (by decide)

/-- Counterexample to C7 as stated: with zero data points an all-fixed
non-empty constraint array yields Error(Empty), not Error(NoFree): the data
check runs before any parameter processing. -/
theorem mpfit_all_fixed_m0_cex :
    zeroPointFitter.number_of_points = 0 ∧
    fixedPar.fixed = true ∧
    mpfit zeroPointFitter [1] (some [fixedPar]) MPConfig.default = .ok (.Error .Empty) ∧
    RunResult.ok (.Error .Empty) ≠ .ok (.Error .NoFree) := by decide

/-- C8: with zero data points the result is Error(Empty) regardless of the
parameter count, constraints and configuration, and the user residual
function is never evaluated. -/
theorem mpfit_m0_empty
    (f : MPFitter) (xall : List ℚ) (params : Option (List MPPar)) (config : MPConfig)
    (hm : f.number_of_points = 0) :
    mpfit f xall params config = .ok (.Error .Empty) ∧
    (mpfitRun f xall params config).evalCount = 0 := by
  rw [mpfit, mpfitRun_m0 f xall params config hm]
  exact ⟨rfl, rfl⟩

/-- Witness for `mpfit_m0_empty` at a concrete input. -/
theorem mpfit_m0_empty_w :
    mpfit zeroPointFitter [1, 2] none MPConfig.default = .ok (.Error .Empty) ∧
    (mpfitRun zeroPointFitter [1, 2] none MPConfig.default).evalCount = 0 :=
  mpfit_m0_empty zeroPointFitter [1, 2] none MPConfig.default (by decide)

/-- C9: for every call past the Empty and NoFree checks, m < nfree yields
Error(DoF), and at the boundary m = nfree no DoF error is raised. -/
theorem mpfit_dof_boundary
    (f : MPFitter) (xall : List ℚ) (params : Option (List MPPar)) (config : MPConfig)
    (hm : f.number_of_points ≠ 0)
    (hfree : ∀ pars, params = some pars → pars ≠ [] ∧ (ifreeOf pars).length ≠ 0) :
    (f.number_of_points < nfreeOf xall params →
      mpfit f xall params config = .ok (.Error .DoF)) ∧
    (f.number_of_points = nfreeOf xall params →
      mpfit f xall params config ≠ .ok (.Error .DoF)) := by
  cases params with
  | none =>
    rw [mpfit, mpfitRun_none_eq f xall config hm]
    constructor
    · intro hlt
      rw [mpfitMain_dof f xall config (fitOfNone f xall) hlt]
      rfl
    · intro heq hcontra
      have hnlt : ¬ (fitOfNone f xall).m < (fitOfNone f xall).nfree := by
        have h0 : (fitOfNone f xall).nfree = nfreeOf xall none := rfl
        rw [h0, ← heq]
        exact Nat.lt_irrefl _
      rcases mpfitMain_not_dof f xall config (fitOfNone f xall) hnlt with ha | ha <;>
        rw [hcontra] at ha <;> exact absurd ha (by simp)
  | some pars =>
    obtain ⟨hne, hnf⟩ := hfree pars rfl
    have hne' : pars.length ≠ 0 := fun h => hne (List.length_eq_zero.mp h)
    rw [mpfit, mpfitRun_some_eq f xall config pars hm hne' hnf]
    constructor
    · intro hlt
      rw [mpfitMain_dof f xall config (fitOfSome f xall pars) hlt]
      rfl
    · intro heq hcontra
      have hnlt : ¬ (fitOfSome f xall pars).m < (fitOfSome f xall pars).nfree := by
        have h0 : (fitOfSome f xall pars).nfree = nfreeOf xall (some pars) := rfl
        rw [h0, ← heq]
        exact Nat.lt_irrefl _
      rcases mpfitMain_not_dof f xall config (fitOfSome f xall pars) hnlt with ha | ha <;>
        rw [hcontra] at ha <;> exact absurd ha (by simp)

/-- Witness for `mpfit_dof_boundary`: just below the boundary (m = 1 and
nfree = 2) the call yields DoF; at the boundary (m = nfree = 1) it does not. -/
theorem mpfit_dof_boundary_w :
    mpfit oneZeroFitter [1, 2] none MPConfig.default = .ok (.Error .DoF) ∧
    mpfit oneZeroFitter [7] none MPConfig.default ≠ .ok (.Error .DoF) :=
  ⟨(mpfit_dof_boundary oneZeroFitter [1, 2] none MPConfig.default (by decide)
      (fun pars h => by cases h)).1 (by decide),
   (mpfit_dof_boundary oneZeroFitter [7] none MPConfig.default (by decide)
      (fun pars h => by cases h)).2 (by decide)⟩

/-- One accumulation step on the value zero leaves the zero state unchanged:
zero falls through every branch of the loop body. -/
theorem enormAcc_zero (ag : ℚ) : enormAcc ag (0, 0, 0, 0, 0) 0 = (0, 0, 0, 0, 0) := by
  simp only [enormAcc, abs_zero]
  rw [if_neg (fun h => absurd h.1 (by norm_num [MP_RDWARF]))]
  rw [if_neg (by norm_num [MP_RDWARF] : ¬ ((0:ℚ) > MP_RDWARF))]
  rw [if_neg (lt_irrefl (0:ℚ))]
  rw [if_neg (fun h => h rfl)]

/-- The accumulation over an all-zero vector stays at the zero state. -/
theorem foldl_enormAcc_zero (ag : ℚ) (l : List ℚ) (h : ∀ v ∈ l, v = 0) :
    l.foldl (enormAcc ag) (0, 0, 0, 0, 0) = (0, 0, 0, 0, 0) := by
  induction l with
  | nil => rfl
  | cons a t ih =>
    have ha : a = 0 := h a (List.mem_cons_self a t)
    rw [List.foldl_cons, ha, enormAcc_zero]
    exact ih fun v hv => h v (List.mem_cons_of_mem a hv)

/-- C10: enorm applied to a vector whose components are all zero (including
the zero-length vector) returns exactly 0, for every point count m. -/
theorem enorm_all_zero (m : ℕ) (fvec : List ℚ) (h : ∀ v ∈ fvec, v = 0) :
    enorm m fvec = 0 := by
  rw [enorm, foldl_enormAcc_zero _ fvec h]
  show enormFinish (0, 0, 0, 0, 0) = 0
  simp [enormFinish]

/-- Witness for `enorm_all_zero`: the empty vector and a three-component zero
vector both have norm exactly 0. -/
theorem enorm_all_zero_w : enorm 0 [] = 0 ∧ enorm 3 [0, 0, 0] = 0 :=
  ⟨enorm_all_zero 0 [] (by decide), enorm_all_zero 3 [0, 0, 0] (by decide)⟩

/-- enorm of the single-point residual vector [3] is 3: the component lands
in the intermediate sum and the final combination is the square root of 9. -/
theorem enorm_res3 : enorm 1 [3] = 3 := by
  have habs : |(3:ℚ)| = 3 := by norm_num
  have hstep : enormAcc (MP_RGIANT / ((1 : ℕ) : ℚ)) (0, 0, 0, 0, 0) 3 = (0, 9, 0, 0, 0) := by
    have hcond : |(3:ℚ)| > MP_RDWARF ∧ |(3:ℚ)| < MP_RGIANT / ((1 : ℕ) : ℚ) := by
      rw [habs]
      refine ⟨by norm_num [MP_RDWARF], by norm_num [MP_RGIANT]⟩
    simp only [enormAcc]
    rw [if_pos hcond, habs]
    norm_num
  have hfold : ([3] : List ℚ).foldl (enormAcc (MP_RGIANT / ((1 : ℕ) : ℚ))) (0, 0, 0, 0, 0) =
      (0, 9, 0, 0, 0) := by
    rw [List.foldl_cons, List.foldl_nil, hstep]
  rw [enorm, hfold]
  show enormFinish (0, 9, 0, 0, 0) = 3
  simp only [enormFinish]
  rw [if_neg (fun h => h rfl), if_pos (by norm_num : (9:ℚ) ≠ 0),
      if_pos (by norm_num : (9:ℚ) ≥ 0)]
  have h9 : ((9 * (1 + 0 / 9 * (0 * 0)) : ℚ) : ℝ) = (3 : ℝ) ^ 2 := by norm_num
  rw [h9, Real.sqrt_sq (by norm_num : (0:ℝ) ≤ 3)]

/-- Fidelity check for the large-component branch of the accumulation loop
(src/lib.rs:263-272): a single component above the agiant threshold lands in
the large sum with `x1max` set to the component (`x3max` untouched), and the
final combination returns exactly that component. -/
theorem enorm_large_component :
    enorm 1 [2 * MP_RGIANT] = ((2 * MP_RGIANT : ℚ) : ℝ) := by
  have hG : (0:ℚ) < MP_RGIANT := by norm_num [MP_RGIANT]
  have hpos : (0:ℚ) < 2 * MP_RGIANT := by linarith
  have habs : |(2 * MP_RGIANT : ℚ)| = 2 * MP_RGIANT := abs_of_pos hpos
  have hc1 : ¬ (|(2 * MP_RGIANT : ℚ)| > MP_RDWARF ∧
      |(2 * MP_RGIANT : ℚ)| < MP_RGIANT / ((1 : ℕ) : ℚ)) := by
    rw [habs]
    rintro ⟨-, hlt⟩
    rw [Nat.cast_one, div_one] at hlt
    linarith
  have hc2 : |(2 * MP_RGIANT : ℚ)| > MP_RDWARF := by
    rw [habs]
    norm_num [MP_RDWARF, MP_RGIANT]
  have hc3 : |(2 * MP_RGIANT : ℚ)| > 0 := by rw [habs]; exact hpos
  have hstep : enormAcc (MP_RGIANT / ((1 : ℕ) : ℚ)) (0, 0, 0, 0, 0) (2 * MP_RGIANT) =
      (1, 0, 0, 2 * MP_RGIANT, 0) := by
    simp only [enormAcc]
    rw [if_neg hc1, if_pos hc2, if_pos hc3, habs]
    norm_num
  have hfold : ([2 * MP_RGIANT] : List ℚ).foldl
      (enormAcc (MP_RGIANT / ((1 : ℕ) : ℚ))) (0, 0, 0, 0, 0) = (1, 0, 0, 2 * MP_RGIANT, 0) := by
    rw [List.foldl_cons, List.foldl_nil, hstep]
  rw [enorm, hfold]
  show enormFinish (1, 0, 0, 2 * MP_RGIANT, 0) = ((2 * MP_RGIANT : ℚ) : ℝ)
  simp only [enormFinish]
  rw [if_pos (by norm_num : (1:ℚ) ≠ 0)]
  have hr : ((1 + 0 / (2 * MP_RGIANT) / (2 * MP_RGIANT) : ℚ) : ℝ) = 1 := by norm_num
  rw [hr, Real.sqrt_one, mul_one]

/-- C5 evaluated at a failing input: the call succeeds, the residual at the
initial parameter vector is [3] whose squared enorm is 9, yet the returned
status carries orig_norm = 0 — the value computed at src/lib.rs:429 is
discarded and the returned field is the hardcoded 0.0 of src/lib.rs:452. -/
theorem mpfit_orig_norm_discarded :
    (mpfitRun res3Fitter [0] none MPConfig.default).result =
      .ok (.Success .Both zeroStatus) ∧
    res3Fitter.eval [0] = [3] ∧
    enorm 1 (res3Fitter.eval [0]) * enorm 1 (res3Fitter.eval [0]) = 9 ∧
    ((zeroStatus.orig_norm : ℚ) : ℝ) ≠
      enorm 1 (res3Fitter.eval [0]) * enorm 1 (res3Fitter.eval [0]) := by
  have he : res3Fitter.eval [0] = [3] := rfl
  have h3 : enorm 1 (res3Fitter.eval [0]) = 3 := by rw [he, enorm_res3]
  refine ⟨by decide, he, ?_, ?_⟩
  · rw [h3]; norm_num
  · rw [h3]; norm_num [zeroStatus]

/-- C4 evaluated at a failing input: one data point, one free parameter with
declared absolute step 1/2, residual 2·p0 (derivative 2 everywhere).  The
Jacobian step leaves the stored 1-by-1 Jacobian matrix at its zero
initialisation and performs no function evaluation beyond the single initial
one, although fdjack2 selects the step h = 1/2 and the forward difference
(f(x+h)-f(x))/h at that step equals 2, not 0. -/
theorem fdjack2_no_jacobian :
    (mpfitRun slopeFitter [1] (some [stepHalfPar]) MPConfig.default).result =
      .ok (.Success .Both zeroStatus) ∧
    (mpfitRun slopeFitter [1] (some [stepHalfPar]) MPConfig.default).fjackFinal = [0] ∧
    (mpfitRun slopeFitter [1] (some [stepHalfPar]) MPConfig.default).evalCount = 1 ∧
    fdjack2H MPConfig.default [1] [1 / 2] [0] 0 = ((1 / 2 : ℚ) : ℝ) ∧
    ((slopeFitter.eval [1 + 1 / 2]).headD 0 - (slopeFitter.eval [1]).headD 0) / (1 / 2) = 2 ∧
    (0 : ℚ) ≠ 2 := by
  refine ⟨by decide, by decide, by decide, ?_, ?_, by decide⟩
  · have hC1 : 0 < ([1 / 2] : List ℚ).length ∧ 0 < ([1 / 2] : List ℚ).getD 0 0 := by
      refine ⟨by decide, ?_⟩
      rw [List.getD_cons_zero]
      norm_num
    have hC2 : ¬ (0 < ([0] : List ℚ).length ∧ 0 < ([0] : List ℚ).getD 0 0) := by decide
    have hne : ¬ ((([1 / 2] : List ℚ).getD 0 0 : ℚ) : ℝ) = 0 := by
      rw [List.getD_cons_zero]
      norm_num
    simp only [fdjack2H]
    rw [if_pos hC1, if_neg hC2, if_neg hne, List.getD_cons_zero]
  · show ((slopeFitter.eval [1 + 1 / 2]).headD 0 - (slopeFitter.eval [1]).headD 0) / (1 / 2) = 2
    simp only [slopeFitter, List.headD_cons]
    norm_num
